import Mathlib

/-!
Verification of the schedule-grid parser of `app/main.py` (the
`upload_schedule` endpoint): the grid scanner, the interval normalizer and
the event assembler are embedded as executable Lean functions and the
specified properties are settled against them.

Timestamps are modelled as seconds counted from the proleptic Gregorian
epoch: a naive Python `datetime` is the pair (ordinal day, seconds within
the day), and `pd.Timedelta(days=1)` adds exactly 86400 seconds — raising
`OverflowError` past `datetime.max` (9999-12-31), modelled by the partial
`addOneDay`. The column walk can fail to terminate (the equality `continue`
of lines 87-88 skips the `c += 1` of line 115), so the scan returns an
`Option`: `none` is the run that never comes back.
-/

/-- Numeric value of a digit/underscore list, ignoring underscores
(Python `int` accepts single underscores between digits). -/
def natVal (l : List Char) : Nat :=
  l.foldl (fun a c => if c = '_' then a else a * 10 + (c.toNat - 48)) 0

/-- Digit run as accepted by Python `int`: nonempty digits, single
underscores allowed strictly between digits. -/
def digitsUnd : List Char → Bool
  | [] => false
  | [c] => c.isDigit
  | c :: '_' :: r2 => c.isDigit && digitsUnd r2
  | c :: rest => c.isDigit && digitsUnd rest

/-- Python `int(s)` on an already-stripped string: optional sign, then a
digit run; any other shape raises `ValueError` (modelled as `none`). -/
def pyInt (s : String) : Option Int :=
  match s.data with
  | '+' :: rest => if digitsUnd rest then some (natVal rest) else none
  | '-' :: rest => if digitsUnd rest then some (-(natVal rest : Int)) else none
  | l => if digitsUnd l then some (natVal l) else none

/-- Python `str.strip()`: drop whitespace from both ends (kernel-computable
list implementation; the schedule cells only carry ASCII whitespace). -/
def pyStrip (s : String) : String :=
  ⟨((s.data.dropWhile Char.isWhitespace).reverse.dropWhile Char.isWhitespace).reverse⟩

/-- ASCII lower-casing of one character (the markers "Diana"/"Dzień" only
need the ASCII range; `ń` is already lowercase). -/
def asciiLower (c : Char) : Char :=
  if 'A' ≤ c ∧ c ≤ 'Z' then Char.ofNat (c.toNat + 32) else c

/-- Python `str.lower()` on the marker strings (ASCII case folding). -/
def pyLower (s : String) : String := ⟨s.data.map asciiLower⟩

/-- Python `str.endswith(suffix)`. -/
def pyEndsWith (s suffix : String) : Bool := suffix.data.isSuffixOf s.data

/-- Splitting a character list at `':'` (the field separator of the
`"%H:%M:%S"` pattern); `acc` holds the current field reversed. -/
def splitColon : List Char → List Char → List String
  | [], acc => [⟨acc.reverse⟩]
  | c :: rest, acc =>
    if c = ':' then ⟨acc.reverse⟩ :: splitColon rest []
    else splitColon rest (c :: acc)

/-- Gregorian leap year, as Python's `calendar`/`datetime` use it. -/
def isLeap (y : Nat) : Bool :=
  y % 4 = 0 && (y % 100 != 0 || y % 400 = 0)

/-- Length of month `m` (1-12) in year `y`. -/
def daysInMonth (y m : Nat) : Nat :=
  if m = 2 then (if isLeap y then 29 else 28)
  else if m = 4 ∨ m = 6 ∨ m = 9 ∨ m = 11 then 30
  else 31

/-- Days of year `y` that precede month `m` (1-12). -/
def daysBeforeMonth (y m : Nat) : Nat :=
  match m with
  | 1 => 0
  | 2 => 31
  | 3 => 59 + (if isLeap y then 1 else 0)
  | 4 => 90 + (if isLeap y then 1 else 0)
  | 5 => 120 + (if isLeap y then 1 else 0)
  | 6 => 151 + (if isLeap y then 1 else 0)
  | 7 => 181 + (if isLeap y then 1 else 0)
  | 8 => 212 + (if isLeap y then 1 else 0)
  | 9 => 243 + (if isLeap y then 1 else 0)
  | 10 => 273 + (if isLeap y then 1 else 0)
  | 11 => 304 + (if isLeap y then 1 else 0)
  | _ => 334 + (if isLeap y then 1 else 0)

/-- Days before January 1 of year `y` (proleptic Gregorian, year 1 based;
matches Python `datetime.toordinal` minus the day-of-year part). -/
def daysBeforeYear (y : Nat) : Nat :=
  365 * (y - 1) + (y - 1) / 4 - (y - 1) / 100 + (y - 1) / 400

/-- Proleptic Gregorian ordinal of the date `y-m-d` (day 0001-01-01 has
ordinal 1, exactly as Python `datetime.toordinal`). -/
def rataDie (y m d : Nat) : Nat :=
  daysBeforeYear y + daysBeforeMonth y m + d

/-- The timestamp (in seconds) of the naive datetime `y-m-d h:mi:s`. -/
def timestamp (y m d h mi s : Nat) : Nat :=
  rataDie y m d * 86400 + h * 3600 + mi * 60 + s

/-- Calendar successor of a valid date. -/
def nextDay (y m d : Nat) : Nat × Nat × Nat :=
  if d < daysInMonth y m then (y, m, d + 1)
  else if m < 12 then (y, m + 1, 1)
  else (y + 1, 1, 1)

/-- One component of the `%H`/`%M`/`%S` patterns of `strptime`: one or two
ASCII digits (value bounds are checked by the caller, mirroring the
alternations `2[0-3]|[0-1]\d|\d` etc. of CPython TimeRE). -/
def twoDigitNum (s : String) : Option Nat :=
  if s.data ≠ [] ∧ s.data.length ≤ 2 ∧ s.data.all Char.isDigit then some (natVal s.data)
  else none

/-- Matching of a time string against `"%H:%M:%S"`: exactly two colons,
each field one or two digits, hour at most 23, minute at most 59, second at
most 61 (TimeRE accepts leap seconds; `datetime` construction rejects 60/61
later). -/
def timeRe (s : String) : Option (Nat × Nat × Nat) :=
  match splitColon s.data [] with
  | [hs, ms, ss] =>
    match twoDigitNum hs, twoDigitNum ms, twoDigitNum ss with
    | some h, some mi, some sec =>
      if h ≤ 23 ∧ mi ≤ 59 ∧ sec ≤ 61 then some (h, mi, sec) else none
    | _, _, _ => none
  | _ => none

/-- Models `datetime.strptime(f"{year}-{month:02d}-{day:02d} {t}",
"%Y-%m-%d %H:%M:%S")`: `%Y` needs exactly four digits so the unpadded
`f"{year}"` must lie in 1000..9999; `%m` accepts 1..12, `%d` accepts 1..31;
the time part must match `timeRe`; finally the `datetime` constructor
rejects a day beyond the month length and a leap second. Returns the
timestamp of the parsed datetime, `none` on `ValueError`. -/
def strptimeFull (year month day : Int) (t : String) : Option Nat :=
  if 1000 ≤ year ∧ year ≤ 9999 ∧ 1 ≤ month ∧ month ≤ 12 ∧ 1 ≤ day ∧ day ≤ 31 then
    match timeRe t with
    | some (h, mi, s) =>
      if s ≤ 59 ∧ day.toNat ≤ daysInMonth year.toNat month.toNat then
        some (timestamp year.toNat month.toNat day.toNat h mi s)
      else none
    | none => none
  else none

/-- Models the constructor call `datetime(year, month, day)`: valid iff the
date exists and the year is in `datetime`'s 1..9999 range; returns the
midnight timestamp. -/
def mkDate (year month day : Int) : Option Nat :=
  if 1 ≤ year ∧ year ≤ 9999 ∧ 1 ≤ month ∧ month ≤ 12 ∧ 1 ≤ day ∧
      day.toNat ≤ daysInMonth year.toNat month.toNat then
    some (timestamp year.toNat month.toNat day.toNat 0 0 0)
  else none

/-- A calendar event as built by `Event(name=..., begin=start_dt, end=end_dt)`
(`end` is a Lean keyword, hence the field name `endTime`). -/
structure Event where
  name : String
  begin : Nat
  endTime : Nat
deriving DecidableEq, Repr


/-- `dt + pd.Timedelta(days=1)` on a naive datetime (main.py lines 96 and
104; `pd.Timedelta` subclasses `datetime.timedelta`, so the addition stays
in `datetime`): Python raises `OverflowError` when the shifted value would
pass `datetime.max` (day 9999-12-31, ordinal `rataDie 9999 12 31`), and the
`except` at line 112 turns that into a rejected entry (`none`). -/
def addOneDay (t : Nat) : Option Nat :=
  if t / 86400 + 1 ≤ rataDie 9999 12 31 then some (t + 86400) else none

/-- The event-creation block (main.py lines 84-113) for one day column:
both raw cells nonempty, textually distinct (the equality `continue` of
lines 87-88 creates no event; its non-advancing control effect on the column
loop is modelled in `scanColsAux`); start composed by `strptime`; end either
the `"24:00"` sentinel — midnight of the next day via
`datetime(year, month, day) + Timedelta(days=1)`, whose
`.replace(hour=0, minute=0)` is a no-op and which can overflow — or composed
by `strptime`; then one more day is added when `end_dt <= start_dt`, which
can also overflow. Any `ValueError`/`OverflowError` is caught and yields no
event (`none`). -/
def tryEvent (year month day : Int) (sr er : String) : Option Event :=
  if sr ≠ "" ∧ er ≠ "" then
    if sr = er then none
    else
      match strptimeFull year month day sr with
      | none => none
      | some start_dt =>
        match (if er = "24:00" then (mkDate year month day).bind addOneDay
               else strptimeFull year month day er) with
        | none => none
        | some e0 =>
          (if e0 ≤ start_dt then addOneDay e0 else some e0).map
            (fun e => ⟨"Работа", start_dt, e⟩)
  else none

/-- The 2-D cell grid the collaborator file readers hand to the scan loop:
all cells already stringified, missing cells read back as `""`. -/
structure Grid where
  cells : List (List String)

def Grid.rows (g : Grid) : Nat := g.cells.length

def Grid.cols (g : Grid) : Nat := (g.cells.map List.length).foldr max 0

/-- `df.iat[r, c]`, with out-of-range reads giving the empty string (the
dataframe is rectangular; ragged model rows are empty-padded). -/
def Grid.iat (g : Grid) (r c : Nat) : String :=
  (g.cells.getD r []).getD c ""

/-- `start_raw` of main.py line 81: the stripped cell two rows below the
anchor, or `""` when that row does not exist. -/
def startRaw (g : Grid) (row c : Nat) : String :=
  if row + 2 < g.rows then pyStrip (g.iat (row + 2) c) else ""

/-- `end_raw` of main.py line 83: the stripped cell three rows below the
anchor, or `""` when that row does not exist. -/
def endRaw (g : Grid) (row c : Nat) : String :=
  if row + 3 < g.rows then pyStrip (g.iat (row + 3) c) else ""

/-- The `while c < cols` walk along the day-header row (main.py lines
66-115), fuel-indexed. Empty cells, non-integer cells and day numbers
outside 1..31 advance `c` by one, as does any processed or rejected
interval — except one case: when both time cells are nonempty and textually
equal, the `continue` at line 88 jumps back to the `while` without running
the `c += 1` at line 115, so the loop re-reads the same column forever;
that divergence is the `none` result. -/
def scanColsAux (g : Grid) (year month : Int) (row : Nat) : Nat → Nat → Option (List Event)
  | _, 0 => some []
  | c, fuel + 1 =>
    if c < g.cols then
      if pyStrip (g.iat (row + 1) c) = "" then
        scanColsAux g year month row (c + 1) fuel
      else
        match pyInt (pyStrip (g.iat (row + 1) c)) with
        | none => scanColsAux g year month row (c + 1) fuel
        | some day =>
          if 1 ≤ day ∧ day ≤ 31 then
            if startRaw g row c ≠ "" ∧ endRaw g row c ≠ "" ∧
                startRaw g row c = endRaw g row c then
              none
            else
              match tryEvent year month day (startRaw g row c) (endRaw g row c) with
              | some ev => (scanColsAux g year month row (c + 1) fuel).map (ev :: ·)
              | none => scanColsAux g year month row (c + 1) fuel
          else scanColsAux g year month row (c + 1) fuel
    else some []

/-- The column walk started at column `c` (every advancing iteration adds
one to `c`, so `cols - c` steps of fuel are exact; the non-advancing
equality case returns `none` directly). -/
def scanColsFrom (g : Grid) (year month : Int) (row c : Nat) : Option (List Event) :=
  scanColsAux g year month row c (g.cols - c)

/-- The per-cell anchor test (main.py lines 59-66): the cell must equal
"diana" after strip/lower, and the cell one row below must equal "dzień";
then the header walk starts one column to the right. -/
def scanCell (g : Grid) (year month : Int) (row col : Nat) : Option (List Event) :=
  if pyLower (pyStrip (g.iat row col)) = "diana" then
    if row + 1 < g.rows ∧ pyLower (pyStrip (g.iat (row + 1) col)) = "dzień" then
      scanColsFrom g year month row (col + 1)
    else some []
  else some []

/-- Sequencing of the per-cell scans: concatenation of the emitted events,
`none` as soon as any cell's walk diverges (the cells are pure, so
none-if-any equals none-at-first for the observable result). -/
def collectSeq : List (Option (List Event)) → Option (List Event)
  | [] => some []
  | o :: rest =>
    match o with
    | none => none
    | some evs =>
      match collectSeq rest with
      | none => none
      | some tail => some (evs ++ tail)

/-- The full row-major double loop (main.py lines 56-115). A `some` result
is the sequence of `cal.events.add` calls in execution order (each `ics`
Event carries a fresh uid, so the set add never merges two of them); `none`
means the equality `continue` made the column loop spin forever and the
scan never returns. -/
def scanGrid (g : Grid) (year month : Int) : Option (List Event) :=
  collectSeq (((List.range g.rows).map fun row =>
    (List.range g.cols).map fun col => scanCell g year month row col).flatten)

/-- The two response shapes of the endpoint: `JSONResponse(status_code, error)`
and the streaming `.ics` attachment. -/
inductive Response where
  | json (status : Nat) (error : String)
  | streaming (events : List Event) (contentDisposition : String)
deriving DecidableEq

/-- Models `upload_schedule` from the point the upload bytes are in hand:
the collaborator spreadsheet readers (pyexcel / pandas, lines 24-50) are
abstracted as an `Except` carrying either the stringified "Plan" sheet or
the status/message of the error response they produce; after a successful
read the request ends in the streaming response of lines 117-124 — unless
the scan diverges, in which case no response is ever produced (`none`). -/
def upload_schedule (filename : String) (readPlan : Except (Nat × String) Grid)
    (year month : Int) : Option Response :=
  if pyEndsWith (pyLower filename) ".ods" ∨ pyEndsWith (pyLower filename) ".xlsx" ∨
      pyEndsWith (pyLower filename) ".xls" then
    match readPlan with
    | .error e => some (.json e.1 e.2)
    | .ok g => (scanGrid g year month).map
        (fun evs => .streaming evs "attachment; filename=work_schedule.ics")
  else some (.json 400 "Unsupported file type. Use .ods or .xlsx")

lemma timeRe_bounds {t : String} {h mi s : Nat} (ht : timeRe t = some (h, mi, s)) :
    h ≤ 23 ∧ mi ≤ 59 ∧ s ≤ 61 := by
  unfold timeRe at ht
  split at ht
  · split at ht
    · split at ht
      · rename_i hcond
        cases ht
        exact hcond
      · cases ht
    · cases ht
  · cases ht

lemma strptimeFull_some {year month day : Int} {t : String} {n : Nat}
    (hp : strptimeFull year month day t = some n) :
    (1000 ≤ year ∧ year ≤ 9999 ∧ 1 ≤ month ∧ month ≤ 12 ∧ 1 ≤ day ∧ day ≤ 31) ∧
    day.toNat ≤ daysInMonth year.toNat month.toNat ∧
    ∃ r, r < 86400 ∧ n = rataDie year.toNat month.toNat day.toNat * 86400 + r := by
  unfold strptimeFull at hp
  split at hp
  · rename_i hcond
    rcases ht : timeRe t with _ | ⟨⟨h, mi, s⟩⟩ <;> rw [ht] at hp
    · cases hp
    · split at hp
      · rename_i h2 mi2 s2 heq
        simp only [Option.some.injEq, Prod.mk.injEq] at heq
        obtain ⟨rfl, rfl, rfl⟩ := heq
        split at hp
        · rename_i hrange
          cases hp
          obtain ⟨hh, hmi, hs⟩ := timeRe_bounds ht
          refine ⟨hcond, hrange.2, h * 3600 + mi * 60 + s, by omega, ?_⟩
          unfold timestamp
          omega
        · cases hp
      · cases hp
  · cases hp

lemma mkDate_some {year month day : Int} {v : Nat}
    (hm : mkDate year month day = some v) :
    v = rataDie year.toNat month.toNat day.toNat * 86400 := by
  unfold mkDate at hm
  split at hm
  · cases hm
    unfold timestamp
    omega
  · cases hm

lemma addOneDay_some {t t2 : Nat} (h : addOneDay t = some t2) : t2 = t + 86400 := by
  unfold addOneDay at h
  split at h
  · exact (Option.some_inj.mp h).symm
  · cases h

lemma tryEvent_some_lt {year month day : Int} {sr er : String} {ev : Event}
    (h : tryEvent year month day sr er = some ev) : ev.begin < ev.endTime := by
  unfold tryEvent at h
  split at h
  · split at h
    · cases h
    · rcases hst : strptimeFull year month day sr with _ | s <;> rw [hst] at h
      · cases h
      · obtain ⟨-, -, r1, hr1, rfl⟩ := strptimeFull_some hst
        by_cases h24 : er = "24:00"
        · rw [if_pos h24] at h
          rcases hsent : (mkDate year month day).bind addOneDay with _ | e0 <;>
            rw [hsent] at h
          · cases h
          · obtain ⟨v, hmk, hao⟩ := Option.bind_eq_some.mp hsent
            rw [mkDate_some hmk] at hao
            have he0 := addOneDay_some hao
            have h2 : (if e0 ≤ rataDie year.toNat month.toNat day.toNat * 86400 + r1
                  then addOneDay e0 else some e0).map
                (fun e => Event.mk "Работа"
                  (rataDie year.toNat month.toNat day.toNat * 86400 + r1) e) =
                some ev := h
            rw [if_neg (by omega)] at h2
            simp only [Option.map_some', Option.some.injEq] at h2
            subst h2
            dsimp only
            omega
        · rw [if_neg h24] at h
          rcases hen : strptimeFull year month day er with _ | e0 <;> rw [hen] at h
          · cases h
          · obtain ⟨-, -, r2, hr2, rfl⟩ := strptimeFull_some hen
            have h2 : (if rataDie year.toNat month.toNat day.toNat * 86400 + r2 ≤
                    rataDie year.toNat month.toNat day.toNat * 86400 + r1
                  then addOneDay (rataDie year.toNat month.toNat day.toNat * 86400 + r2)
                  else some (rataDie year.toNat month.toNat day.toNat * 86400 + r2)).map
                (fun e => Event.mk "Работа"
                  (rataDie year.toNat month.toNat day.toNat * 86400 + r1) e) =
                some ev := h
            by_cases hle : rataDie year.toNat month.toNat day.toNat * 86400 + r2 ≤
                rataDie year.toNat month.toNat day.toNat * 86400 + r1
            · rw [if_pos hle] at h2
              rcases hao : addOneDay (rataDie year.toNat month.toNat day.toNat * 86400 + r2)
                  with _ | e1 <;> rw [hao] at h2
              · cases h2
              · have he1 := addOneDay_some hao
                simp only [Option.map_some', Option.some.injEq] at h2
                subst h2
                dsimp only
                omega
            · rw [if_neg hle] at h2
              simp only [Option.map_some', Option.some.injEq] at h2
              subst h2
              dsimp only
              omega
  · cases h

lemma mem_scanColsAux {g : Grid} {year month : Int} {row : Nat} {ev : Event} :
    ∀ (fuel c : Nat) (evs : List Event),
      scanColsAux g year month row c fuel = some evs → ev ∈ evs →
      ∃ day sr er, tryEvent year month day sr er = some ev := by
  intro fuel
  induction fuel with
  | zero =>
    intro c evs h hm
    simp only [scanColsAux, Option.some.injEq] at h
    subst h
    simp at hm
  | succ n ih =>
    intro c evs h hm
    unfold scanColsAux at h
    split at h
    · split at h
      · exact ih _ _ h hm
      · split at h
        · exact ih _ _ h hm
        · rename_i day _
          split at h
          · split at h
            · cases h
            · split at h
              · rename_i hev
                rcases hrec : scanColsAux g year month row (c + 1) n with _ | tail <;>
                  rw [hrec] at h
                · cases h
                · simp only [Option.map_some', Option.some.injEq] at h
                  subst h
                  rcases List.mem_cons.mp hm with rfl | hm2
                  · exact ⟨day, _, _, hev⟩
                  · exact ih _ _ hrec hm2
              · exact ih _ _ h hm
          · exact ih _ _ h hm
    · simp only [Option.some.injEq] at h
      subst h
      simp at hm

lemma mem_scanCell {g : Grid} {year month : Int} {row col : Nat} {evs : List Event}
    {ev : Event} (h : scanCell g year month row col = some evs) (hm : ev ∈ evs) :
    ∃ day sr er, tryEvent year month day sr er = some ev := by
  unfold scanCell at h
  split at h
  · split at h
    · exact mem_scanColsAux _ _ _ h hm
    · simp only [Option.some.injEq] at h
      subst h
      simp at hm
  · simp only [Option.some.injEq] at h
    subst h
    simp at hm

lemma collectSeq_mem {l : List (Option (List Event))} {evs : List Event} {ev : Event}
    (h : collectSeq l = some evs) (hm : ev ∈ evs) :
    ∃ o ∈ l, ∃ evs2, o = some evs2 ∧ ev ∈ evs2 := by
  induction l generalizing evs with
  | nil =>
    simp only [collectSeq, Option.some.injEq] at h
    subst h
    simp at hm
  | cons o rest ih =>
    cases o with
    | none => simp [collectSeq] at h
    | some evs1 =>
      rcases hrest : collectSeq rest with _ | tail
      · rw [show collectSeq (some evs1 :: rest) = none from by
            simp [collectSeq, hrest]] at h
        cases h
      · rw [show collectSeq (some evs1 :: rest) = some (evs1 ++ tail) from by
            simp [collectSeq, hrest]] at h
        simp only [Option.some.injEq] at h
        subst h
        rcases List.mem_append.mp hm with h1 | h2
        · exact ⟨some evs1, List.mem_cons_self _ rest, evs1, rfl, h1⟩
        · obtain ⟨o2, ho2, evs2, he2, hm2⟩ := ih hrest h2
          exact ⟨o2, List.mem_cons_of_mem _ ho2, evs2, he2, hm2⟩

lemma collectSeq_all_nil {l : List (Option (List Event))}
    (h : ∀ o ∈ l, o = some []) : collectSeq l = some [] := by
  induction l with
  | nil => rfl
  | cons o rest ih =>
    have ho : o = some [] := h o (List.mem_cons_self o rest)
    have hrest : collectSeq rest = some [] :=
      ih fun o2 ho2 => h o2 (List.mem_cons_of_mem o ho2)
    subst ho
    simp [collectSeq, hrest]

lemma mem_scanGrid {g : Grid} {year month : Int} {events : List Event} {ev : Event}
    (h : scanGrid g year month = some events) (hm : ev ∈ events) :
    ∃ day sr er, tryEvent year month day sr er = some ev := by
  obtain ⟨o, ho, evs2, rfl, hm2⟩ := collectSeq_mem h hm
  simp only [List.mem_flatten, List.mem_map, List.mem_range,
    exists_exists_and_eq_and] at ho
  obtain ⟨row, -, col, -, hcell⟩ := ho
  exact mem_scanCell hcell hm2

lemma daysBeforeYear_succ (y : Nat) (hy : 1 ≤ y) :
    daysBeforeYear (y + 1) = daysBeforeYear y + 365 + (if isLeap y then 1 else 0) := by
  obtain ⟨n, rfl⟩ : ∃ n, y = n + 1 := ⟨y - 1, by omega⟩
  unfold daysBeforeYear isLeap
  simp only [Nat.add_sub_cancel]
  rw [Nat.succ_div, Nat.succ_div, Nat.succ_div]
  have h1 : n / 100 ≤ n / 4 := Nat.div_le_div_left (by norm_num) (by norm_num)
  have h2 : (100 : Nat) ∣ n + 1 → (4 : Nat) ∣ n + 1 := fun hd => dvd_trans (by norm_num) hd
  have h3 : (400 : Nat) ∣ n + 1 → (100 : Nat) ∣ n + 1 := fun hd => dvd_trans (by norm_num) hd
  have m4 : (4 : Nat) ∣ n + 1 ↔ (n + 1) % 4 = 0 := Nat.dvd_iff_mod_eq_zero
  have m100 : (100 : Nat) ∣ n + 1 ↔ (n + 1) % 100 = 0 := Nat.dvd_iff_mod_eq_zero
  have m400 : (400 : Nat) ∣ n + 1 ↔ (n + 1) % 400 = 0 := Nat.dvd_iff_mod_eq_zero
  simp only [Bool.and_eq_true, Bool.or_eq_true, bne_iff_ne, ne_eq, decide_eq_true_eq]
  split_ifs <;> omega

lemma daysBeforeMonth_add (y m : Nat) (hm1 : 1 ≤ m) (hm2 : m ≤ 11) :
    daysBeforeMonth y m + daysInMonth y m = daysBeforeMonth y (m + 1) := by
  interval_cases m <;>
    simp only [daysBeforeMonth, daysInMonth] <;>
    norm_num <;> cases isLeap y <;> simp

lemma rataDie_succ (y m d : Nat) (hy : 1 ≤ y) (hm1 : 1 ≤ m) (hm2 : m ≤ 12)
    (hd1 : 1 ≤ d) (hd2 : d ≤ daysInMonth y m) :
    rataDie (nextDay y m d).1 (nextDay y m d).2.1 (nextDay y m d).2.2 =
      rataDie y m d + 1 := by
  unfold nextDay
  split
  · simp only [rataDie]
    omega
  · split
    · rename_i hlt hm
      have hd : d = daysInMonth y m := by omega
      subst hd
      have := daysBeforeMonth_add y m hm1 (by omega)
      simp only [rataDie]
      omega
    · rename_i hlt hm
      have hm12 : m = 12 := by omega
      subst hm12
      have hd : d = 31 := by
        have : daysInMonth y 12 = 31 := by simp [daysInMonth]
        omega
      subst hd
      have hsucc := daysBeforeYear_succ y hy
      have hdim : daysInMonth y 12 = 31 := by simp [daysInMonth]
      simp only [rataDie, daysBeforeMonth] at *
      omega

lemma strptimeFull_none_of_timeRe {year month day : Int} {t : String}
    (h : timeRe t = none) : strptimeFull year month day t = none := by
  unfold strptimeFull
  split
  · rw [h]
  · rfl

/-- C1: for every grid, month and year, every NormalizedShift emitted by the
core — every calendar event the scan adds to the result before returning —
has an end timestamp strictly greater than its start timestamp. -/
theorem C1_every_emitted_shift_ends_after_start (g : Grid) (year month : Int)
    (events : List Event) (ev : Event) (h : scanGrid g year month = some events)
    (hm : ev ∈ events) : ev.begin < ev.endTime := by
  obtain ⟨day, sr, er, he⟩ := mem_scanGrid h hm
  exact tryEvent_some_lt he

/-- Witness for C1 at a concrete grid: the single emitted shift 08:00-16:00
on 2024-03-05 satisfies the invariant. -/
theorem C1_witness :
    scanGrid ⟨[["Diana"], ["Dzień", "5"], ["", "08:00:00"], ["", "16:00:00"]]⟩ 2024 3 =
      some [⟨"Работа", timestamp 2024 3 5 8 0 0, timestamp 2024 3 5 16 0 0⟩] ∧
    (timestamp 2024 3 5 8 0 0 : Nat) < timestamp 2024 3 5 16 0 0 :=
  ⟨by decide,
   C1_every_emitted_shift_ends_after_start
     ⟨[["Diana"], ["Dzień", "5"], ["", "08:00:00"], ["", "16:00:00"]]⟩ 2024 3
     [⟨"Работа", timestamp 2024 3 5 8 0 0, timestamp 2024 3 5 16 0 0⟩]
     ⟨"Работа", timestamp 2024 3 5 8 0 0, timestamp 2024 3 5 16 0 0⟩
     (by decide) (by decide)⟩

/-- C2 counterexample: the claim also admits the sentinel spelling
`"24:00:00"`, but the code compares the end cell against the literal
`"24:00"` only, and `"24:00:00"` then fails `strptime` (`%H` accepts at
most 23), so no shift at all is emitted for start 08:00:00, end 24:00:00 on
day 15 of month 3, year 2024 — not a shift ending at next-day midnight. -/
theorem C2_counterexample_240000_rejected :
    tryEvent 2024 3 15 "08:00:00" "24:00:00" = none := by decide

/-- C2 (amended): only the exact literal `"24:00"` as end cell is the
midnight sentinel. For every DayColumn whose end cell is `"24:00"`, whose
start cell parses (and differs from the end cell), and whose following
midnight still fits in `datetime`'s range (day ordinal below that of
9999-12-31), the emitted end timestamp is midnight of the calendar day
immediately following, computed by calendar arithmetic (`nextDay`); for day
31 of month 1 the following day is month 2, day 1 of the same year; for
start "08:00:00", end "24:00" on 2024-03-15 the shift spans
2024-03-15T08:00:00 to 2024-03-16T00:00:00; and on 9999-12-31 the one-day
addition overflows `datetime.max`, the error is caught, and no shift is
emitted. -/
theorem C2_amended_2400_sentinel_is_next_day_midnight :
    (∀ (year month day : Int) (sr : String) (s : Nat),
        sr ≠ "24:00" →
        strptimeFull year month day sr = some s →
        rataDie year.toNat month.toNat day.toNat + 1 ≤ rataDie 9999 12 31 →
        tryEvent year month day sr "24:00" =
          some ⟨"Работа", s,
            timestamp (nextDay year.toNat month.toNat day.toNat).1
              (nextDay year.toNat month.toNat day.toNat).2.1
              (nextDay year.toNat month.toNat day.toNat).2.2 0 0 0⟩) ∧
    (∀ y : Nat, nextDay y 1 31 = (y, 2, 1)) ∧
    tryEvent 2024 3 15 "08:00:00" "24:00" =
      some ⟨"Работа", timestamp 2024 3 15 8 0 0, timestamp 2024 3 16 0 0 0⟩ ∧
    tryEvent 9999 12 31 "08:00:00" "24:00" = none := by
  refine ⟨?_, ?_, by decide, by decide⟩
  · intro year month day sr s hne hst hov
    obtain ⟨hcond, hdim, r, hr, rfl⟩ := strptimeFull_some hst
    have hsr : sr ≠ "" := by
      intro h
      subst h
      rw [strptimeFull_none_of_timeRe (by decide)] at hst
      cases hst
    unfold tryEvent
    rw [if_pos ⟨hsr, by simp⟩, if_neg hne, hst, if_pos rfl]
    have hmk : mkDate year month day =
        some (timestamp year.toNat month.toNat day.toNat 0 0 0) := by
      unfold mkDate
      rw [if_pos ⟨by omega, by omega, by omega, by omega, by omega, hdim⟩]
    have hend : (mkDate year month day).bind addOneDay =
        some (timestamp year.toNat month.toNat day.toNat 0 0 0 + 86400) := by
      rw [hmk]
      show addOneDay (timestamp year.toNat month.toNat day.toNat 0 0 0) = _
      unfold addOneDay
      rw [if_pos (by unfold timestamp; omega)]
    rw [hend]
    have hR := rataDie_succ year.toNat month.toNat day.toNat (by omega) (by omega)
      (by omega) (by omega) hdim
    show (if timestamp year.toNat month.toNat day.toNat 0 0 0 + 86400 ≤
          rataDie year.toNat month.toNat day.toNat * 86400 + r
        then addOneDay (timestamp year.toNat month.toNat day.toNat 0 0 0 + 86400)
        else some (timestamp year.toNat month.toNat day.toNat 0 0 0 + 86400)).map
        (fun e => Event.mk "Работа"
          (rataDie year.toNat month.toNat day.toNat * 86400 + r) e) =
      some ⟨"Работа", rataDie year.toNat month.toNat day.toNat * 86400 + r,
        timestamp (nextDay year.toNat month.toNat day.toNat).1
          (nextDay year.toNat month.toNat day.toNat).2.1
          (nextDay year.toNat month.toNat day.toNat).2.2 0 0 0⟩
    rw [if_neg (by unfold timestamp; omega)]
    simp only [Option.map_some', Option.some.injEq, Event.mk.injEq, true_and]
    unfold timestamp
    omega
  · intro y
    simp [nextDay, daysInMonth]

/-- Witness for C2 applying the sentinel rule on 2024-01-31, where the next
day rolls over into February. -/
theorem C2_witness :
    tryEvent 2024 1 31 "10:00:00" "24:00" =
      some ⟨"Работа", timestamp 2024 1 31 10 0 0,
        timestamp (nextDay 2024 1 31).1 (nextDay 2024 1 31).2.1
          (nextDay 2024 1 31).2.2 0 0 0⟩ :=
  C2_amended_2400_sentinel_is_next_day_midnight.1 2024 1 31 "10:00:00"
    (timestamp 2024 1 31 10 0 0) (by decide) (by decide) (by decide)

/-- C3 counterexample: on day 31 of month 12, year 9999 with start
"22:00:00" and end "06:00:00" (both parse, end before start) the claim
demands a shift reaching into the next day, but
`end_dt += pd.Timedelta(days=1)` overflows `datetime.max`, the error is
caught at line 112, and the column is skipped: no day is added and no shift
is emitted. -/
theorem C3_counterexample_overflow_on_max_date :
    tryEvent 9999 12 31 "22:00:00" "06:00:00" = none := by decide

/-- C3 (amended): when both cells parse as same-day timestamps, the end is
not after the start, and the shifted end still fits in `datetime`'s range
(day ordinal below that of 9999-12-31), exactly one calendar day (86400 s)
is added to the end; on 9999-12-31 the addition overflows and the entry is
rejected instead. In particular 22:00:00 to 06:00:00 on 2024-02-28 spans
into the leap day 2024-02-29. -/
theorem C3_amended_overnight_adds_one_day_below_max :
    (∀ (year month day : Int) (sr er : String) (s e : Nat),
        sr ≠ er → er ≠ "24:00" →
        strptimeFull year month day sr = some s →
        strptimeFull year month day er = some e →
        e ≤ s →
        rataDie year.toNat month.toNat day.toNat + 1 ≤ rataDie 9999 12 31 →
        tryEvent year month day sr er = some ⟨"Работа", s, e + 86400⟩) ∧
    tryEvent 2024 2 28 "22:00:00" "06:00:00" =
      some ⟨"Работа", timestamp 2024 2 28 22 0 0, timestamp 2024 2 29 6 0 0⟩ := by
  refine ⟨?_, by decide⟩
  intro year month day sr er s e hne h24 hs he hle hov
  have hsr : sr ≠ "" := by
    intro hh
    subst hh
    rw [strptimeFull_none_of_timeRe (by decide)] at hs
    cases hs
  have her : er ≠ "" := by
    intro hh
    subst hh
    rw [strptimeFull_none_of_timeRe (by decide)] at he
    cases he
  obtain ⟨-, -, r1, hr1, rfl⟩ := strptimeFull_some hs
  obtain ⟨-, -, r2, hr2, rfl⟩ := strptimeFull_some he
  unfold tryEvent
  rw [if_pos ⟨hsr, her⟩, if_neg hne, hs, if_neg h24, he]
  show (if rataDie year.toNat month.toNat day.toNat * 86400 + r2 ≤
        rataDie year.toNat month.toNat day.toNat * 86400 + r1
      then addOneDay (rataDie year.toNat month.toNat day.toNat * 86400 + r2)
      else some (rataDie year.toNat month.toNat day.toNat * 86400 + r2)).map
      (fun e2 => Event.mk "Работа"
        (rataDie year.toNat month.toNat day.toNat * 86400 + r1) e2) =
    some ⟨"Работа", rataDie year.toNat month.toNat day.toNat * 86400 + r1,
      rataDie year.toNat month.toNat day.toNat * 86400 + r2 + 86400⟩
  rw [if_pos hle]
  unfold addOneDay
  rw [if_pos (by omega)]
  rfl

/-- Witness for C3 at a fresh concrete overnight input (20:00 to 04:00 on
2024-03-15). -/
theorem C3_witness :
    tryEvent 2024 3 15 "20:00:00" "04:00:00" =
      some ⟨"Работа", timestamp 2024 3 15 20 0 0, timestamp 2024 3 15 4 0 0 + 86400⟩ :=
  C3_amended_overnight_adds_one_day_below_max.1 2024 3 15 "20:00:00" "04:00:00"
    (timestamp 2024 3 15 20 0 0) (timestamp 2024 3 15 4 0 0) (by decide) (by decide)
    (by decide) (by decide) (by decide) (by decide)

/-- C4 counterexample: a DayColumn with start "08:00" and end "16:00"
(well-formed HH:MM times) is rejected, not emitted: the code parses with
the seconds-mandatory pattern `"%H:%M:%S"`. -/
theorem C4_counterexample_hhmm_form_rejected :
    tryEvent 2024 3 15 "08:00" "16:00" = none := by decide

/-- C4 (amended): the normalizer accepts time cells only in HH:MM:SS form
(plus the literal end sentinel "24:00"): the HH:MM pair "08:00"/"16:00" is
always rejected, while a pair of cells that parse under `"%H:%M:%S"` and
are textually distinct emits a shift whenever the end is after the start or
the day ordinal lies below that of 9999-12-31 (on 9999-12-31 an overnight
pair overflows `datetime` and is rejected). -/
theorem C4_amended_only_hhmmss_form_accepted :
    (∀ year month day : Int, tryEvent year month day "08:00" "16:00" = none) ∧
    (∀ (year month day : Int) (sr er : String) (s e : Nat),
        sr ≠ er → er ≠ "24:00" →
        strptimeFull year month day sr = some s →
        strptimeFull year month day er = some e →
        (s < e ∨ rataDie year.toNat month.toNat day.toNat + 1 ≤ rataDie 9999 12 31) →
        ∃ ev, tryEvent year month day sr er = some ev) := by
  constructor
  · intro year month day
    unfold tryEvent
    rw [if_pos ⟨by decide, by decide⟩, if_neg (by decide),
      strptimeFull_none_of_timeRe (by decide)]
  · intro year month day sr er s e hne h24 hs he hcase
    have hsr : sr ≠ "" := by
      intro hh
      subst hh
      rw [strptimeFull_none_of_timeRe (by decide)] at hs
      cases hs
    have her : er ≠ "" := by
      intro hh
      subst hh
      rw [strptimeFull_none_of_timeRe (by decide)] at he
      cases he
    obtain ⟨-, -, r1, hr1, rfl⟩ := strptimeFull_some hs
    obtain ⟨-, -, r2, hr2, rfl⟩ := strptimeFull_some he
    unfold tryEvent
    rw [if_pos ⟨hsr, her⟩, if_neg hne, hs, if_neg h24, he]
    show ∃ ev, (if rataDie year.toNat month.toNat day.toNat * 86400 + r2 ≤
          rataDie year.toNat month.toNat day.toNat * 86400 + r1
        then addOneDay (rataDie year.toNat month.toNat day.toNat * 86400 + r2)
        else some (rataDie year.toNat month.toNat day.toNat * 86400 + r2)).map
        (fun e2 => Event.mk "Работа"
          (rataDie year.toNat month.toNat day.toNat * 86400 + r1) e2) = some ev
    by_cases hle : rataDie year.toNat month.toNat day.toNat * 86400 + r2 ≤
        rataDie year.toNat month.toNat day.toNat * 86400 + r1
    · rw [if_pos hle]
      unfold addOneDay
      rw [if_pos (by omega)]
      exact ⟨_, rfl⟩
    · rw [if_neg hle]
      exact ⟨_, rfl⟩

/-- Witness for C4 (amended): the same pair written with seconds,
"08:00:00"/"16:00:00", is accepted. -/
theorem C4_witness :
    ∃ ev, tryEvent 2024 3 15 "08:00:00" "16:00:00" = some ev :=
  C4_amended_only_hhmmss_form_accepted.2 2024 3 15 "08:00:00" "16:00:00"
    (timestamp 2024 3 15 8 0 0) (timestamp 2024 3 15 16 0 0)
    (by decide) (by decide) (by decide) (by decide) (Or.inl (by decide))

/-- C5 counterexample: the ISO-8601 duration "PT1H30M" is never converted
to "01:30:00"; as a start cell it fails `strptime` and no shift is emitted
(the claim would require a shift from 01:30:00 to 16:00:00). -/
theorem C5_counterexample_duration_not_converted :
    tryEvent 2024 3 15 "PT1H30M" "16:00:00" = none := by decide

/-- C5 (amended): there is no ISO-8601 duration handling in the
normalization path: a duration string such as "PT1H30M" in either the start
or the end position always fails time parsing and the entry is silently
rejected. -/
theorem C5_amended_duration_strings_always_rejected :
    (∀ (year month day : Int) (er : String),
        tryEvent year month day "PT1H30M" er = none) ∧
    (∀ (year month day : Int) (sr : String),
        tryEvent year month day sr "PT1H30M" = none) := by
  constructor
  · intro year month day er
    unfold tryEvent
    by_cases her : er = ""
    · rw [if_neg (by simp [her])]
    · rw [if_pos ⟨by decide, her⟩]
      by_cases heq : ("PT1H30M" : String) = er
      · rw [if_pos heq]
      · rw [if_neg heq, strptimeFull_none_of_timeRe (by decide)]
  · intro year month day sr
    unfold tryEvent
    by_cases hsr : sr = ""
    · rw [if_neg (by simp [hsr])]
    · rw [if_pos ⟨hsr, by decide⟩]
      by_cases heq : sr = "PT1H30M"
      · rw [if_pos heq]
      · rw [if_neg heq]
        rcases hst : strptimeFull year month day sr with _ | s
        · rfl
        · rw [if_neg (by decide), strptimeFull_none_of_timeRe (by decide)]

/-- The grid of the C6 example: the day-header row below the anchor reads
["", "5", "x", "12"]. -/
def gridC6 : Grid :=
  ⟨[["Diana", "", "", "", ""], ["Dzień", "", "5", "x", "12"],
    ["", "", "08:00:00", "", "09:00:00"], ["", "", "16:00:00", "", "17:00:00"]]⟩

/-- C6: the header walk never terminates early on a bad header cell: a
column whose header cell is empty, non-numeric or out of the range 1..31 is
skipped and the walk continues at the next column; on the header row
["", "5", "x", "12"] both day 5 and day 12 are found and emitted. -/
theorem C6_scan_skips_invalid_header_cells :
    (∀ (g : Grid) (year month : Int) (row c : Nat),
        c < g.cols →
        (pyStrip (g.iat (row + 1) c) = "" ∨
          pyInt (pyStrip (g.iat (row + 1) c)) = none ∨
          (∃ day, pyInt (pyStrip (g.iat (row + 1) c)) = some day ∧
            (day < 1 ∨ 31 < day))) →
        scanColsFrom g year month row c = scanColsFrom g year month row (c + 1)) ∧
    scanGrid gridC6 2024 3 =
      some [⟨"Работа", timestamp 2024 3 5 8 0 0, timestamp 2024 3 5 16 0 0⟩,
        ⟨"Работа", timestamp 2024 3 12 9 0 0, timestamp 2024 3 12 17 0 0⟩] := by
  refine ⟨?_, by decide⟩
  intro g year month row c hc hskip
  unfold scanColsFrom
  rw [show g.cols - c = (g.cols - (c + 1)) + 1 from by omega]
  rcases hskip with hempty | hnone | ⟨day, hday, hout⟩
  · simp only [scanColsAux, if_pos hc, if_pos hempty]
  · by_cases hv : pyStrip (g.iat (row + 1) c) = ""
    · simp only [scanColsAux, if_pos hc, if_pos hv]
    · simp only [scanColsAux, if_pos hc, if_neg hv, hnone]
  · by_cases hv : pyStrip (g.iat (row + 1) c) = ""
    · simp only [scanColsAux, if_pos hc, if_pos hv]
    · simp only [scanColsAux, if_pos hc, if_neg hv, hday]
      rw [if_neg (by omega)]

/-- Witness for C6 at the example grid: at column 1 the header cell is
empty and the walk gives the same result as starting from column 2. -/
theorem C6_witness :
    scanColsFrom gridC6 2024 3 0 1 = scanColsFrom gridC6 2024 3 0 2 :=
  C6_scan_skips_invalid_header_cells.1 gridC6 2024 3 0 1 (by decide)
    (Or.inl (by decide))

/-- C7: a grid with no cell whose stripped, lower-cased value equals the
marker "diana" produces no events at all — the scan terminates and returns
the empty collection (and, being a total computation on that branch, raises
no exception). -/
theorem C7_no_anchor_yields_no_events (g : Grid) (year month : Int)
    (h : ∀ r, r < g.rows → ∀ c, c < g.cols →
      pyLower (pyStrip (g.iat r c)) ≠ "diana") :
    scanGrid g year month = some [] := by
  unfold scanGrid
  apply collectSeq_all_nil
  intro o ho
  simp only [List.mem_flatten, List.mem_map, List.mem_range,
    exists_exists_and_eq_and] at ho
  obtain ⟨row, hrow, col, hcol, rfl⟩ := ho
  unfold scanCell
  rw [if_neg (h row hrow col hcol)]

/-- Witness for C7: a concrete 2 x 2 grid without the marker. -/
theorem C7_witness :
    scanGrid ⟨[["hello", "world"], ["1", "2"]]⟩ 2024 3 = some [] :=
  C7_no_anchor_yields_no_events ⟨[["hello", "world"], ["1", "2"]]⟩ 2024 3 (by decide)

/-- C8 counterexample: a well-typed upload whose grid contains no anchor —
so the scan terminates with zero shifts — still receives the streaming
`.ics` success response carrying an empty calendar, not a client error
saying nothing was extracted. -/
theorem C8_counterexample_zero_shifts_is_success :
    upload_schedule "plan.xlsx" (Except.ok ⟨[["x", "y"], ["1", "2"]]⟩) 2024 3 =
      some (Response.streaming [] "attachment; filename=work_schedule.ics") := by decide

/-- C8 (amended): when the full scan terminates with zero shifts the
endpoint does not surface any error; it returns the ordinary streaming
attachment response with an empty event collection. Error responses arise
only before the scan (unsupported extension, unreadable file or missing
sheet) — and a grid that drives the equal-pair `continue` never produces
any response at all. -/
theorem C8_amended_zero_shifts_still_streams (g : Grid) (year month : Int)
    (h : scanGrid g year month = some []) :
    upload_schedule "schedule.xlsx" (Except.ok g) year month =
      some (Response.streaming [] "attachment; filename=work_schedule.ics") := by
  unfold upload_schedule
  rw [if_pos (by decide)]
  show (scanGrid g year month).map _ = _
  rw [h]
  rfl

/-- Witness for C8 (amended) at the empty grid. -/
theorem C8_witness :
    upload_schedule "schedule.xlsx" (Except.ok ⟨[]⟩) 2024 3 =
      some (Response.streaming [] "attachment; filename=work_schedule.ics") :=
  C8_amended_zero_shifts_still_streams ⟨[]⟩ 2024 3 (by decide)

/-- The grid of the C9 test: one anchor whose header row holds days
12, 5, 5 (all with identical 08:00:00-16:00:00 times) and a second anchor
further down holding day 5 once more. -/
def gridC9 : Grid :=
  ⟨[["Diana", "", "", ""], ["Dzień", "12", "5", "5"],
    ["", "08:00:00", "08:00:00", "08:00:00"], ["", "16:00:00", "16:00:00", "16:00:00"],
    ["diana", "", "", ""], ["dzień", "5", "", ""],
    ["", "08:00:00", "", ""], ["", "16:00:00", "", ""]]⟩

/-- C9: events appear in scan order — row-major over anchors, then column
ascending within a header row (day 12 precedes day 5 because it sits in an
earlier column) — and the three textually identical day-5 shifts are all
retained as separate events, never merged. -/
theorem C9_scan_order_kept_and_duplicates_retained :
    scanGrid gridC9 2024 3 =
      some [⟨"Работа", timestamp 2024 3 12 8 0 0, timestamp 2024 3 12 16 0 0⟩,
        ⟨"Работа", timestamp 2024 3 5 8 0 0, timestamp 2024 3 5 16 0 0⟩,
        ⟨"Работа", timestamp 2024 3 5 8 0 0, timestamp 2024 3 5 16 0 0⟩,
        ⟨"Работа", timestamp 2024 3 5 8 0 0, timestamp 2024 3 5 16 0 0⟩] := by decide

/-- The grid of the C10 continuation test: a day-6 column whose start cell
is "24:00" (end differs), followed by a normal day-7 column. -/
def gridC10 : Grid :=
  ⟨[["Diana", "", ""], ["Dzień", "6", "7"], ["", "24:00", "09:00:00"],
    ["", "16:00:00", "17:00:00"]]⟩

/-- The grid of the C10 hang case: the day-6 column has start and end both
"24:00". -/
def gridC10hang : Grid :=
  ⟨[["Diana", ""], ["Dzień", "6"], ["", "24:00"], ["", "24:00"]]⟩

/-- C10 counterexample: the claim says every DayColumn whose start cell is
"24:00" is silently rejected "with scanning continuing to the next column",
but when the end cell is also "24:00" the equality `continue` of main.py
lines 87-88 fires before any parsing and skips the `c += 1` of line 115:
the while-loop re-reads the same column forever and the scan never
terminates (`none`), so scanning does not continue. -/
theorem C10_counterexample_equal_pair_hangs :
    scanGrid gridC10hang 2024 3 = none := by decide

/-- C10 (amended): the "24:00" sentinel is honored in end position only —
as a start value no shift is ever emitted (it fails time parsing, or the
degenerate equality branch fires first); and scanning continues to the next
column whenever the end cell differs from the start, as the concrete grid
shows: the day-6 column with start "24:00" emits nothing while the
following day-7 column still emits its shift. When the end cell is also
exactly "24:00" the scan instead loops forever. -/
theorem C10_amended_start_2400_never_emits :
    (∀ (year month day : Int) (er : String),
        tryEvent year month day "24:00" er = none) ∧
    scanGrid gridC10 2024 3 =
      some [⟨"Работа", timestamp 2024 3 7 9 0 0, timestamp 2024 3 7 17 0 0⟩] := by
  refine ⟨?_, by decide⟩
  intro year month day er
  unfold tryEvent
  by_cases her : er = ""
  · rw [if_neg (by simp [her])]
  · rw [if_pos ⟨by decide, her⟩]
    by_cases heq : ("24:00" : String) = er
    · rw [if_pos heq]
    · rw [if_neg heq, strptimeFull_none_of_timeRe (by decide)]
